import Mathlib

/-!
Verification of the trovo-chatbot core against its specification.

The development shallowly embeds two parts of the repository:

* the authenticated request executor `API::process_request`
  (src/api/client.rs, lines 33-79) together with the error values of
  src/api/errors.rs, and

* the chat stream engine of src/api/stream/stream.rs: the reader task
  dispatch `SocketMessagesReader::handle_socket_message`, the keepalive
  state `Ping` with the `Pinger` task, the shared cancellation token, and
  the public handle `ChatMessageStream` (`close` / `poll_next`).

Machine integers of the source (`u64` counters, HTTP status codes) are
modelled as `Nat`; the counters only ever grow by one per protocol step,
so wrap-around of the 64-bit representation is treated as unreachable.
Blocking channel operations are modelled by explicit queues with the
capacities of the source (`mpsc::channel(1)`, `mpsc::channel(32)`), and a
step that would suspend is simply not enabled.
-/

/-! ### Authenticated request executor (src/api/client.rs) -/

/-- A single HTTP response, modelling `reqwest::Response` as far as
`process_request` inspects it: the status code (`response.status()`) and
the raw body from which `response.json::<T>()` decodes. -/
structure Response where
  status : Nat
  raw : String
deriving DecidableEq

/-- Outcome of `process_request::<T>`, modelling
`Result<T, Box<dyn Error>>` with the error values that can actually flow
out of the function: `InvalidResponse { code, response }` and
`EmptyError` from src/api/errors.rs, a transport error propagated from
`request.send().await?`, and a decode error propagated from
`response.json::<T>().await?`. -/
inductive ReqResult (T : Type) where
  | ok (payload : T)
  | invalidResponse (code : Nat) (response : Response)
  | emptyError
  | sendFailed
  | decodeFailed
deriving DecidableEq

/-- Whether a `ReqResult` is the `InvalidResponse` error. -/
def ReqResult.isInvalidResponse {T : Type} : ReqResult T → Bool
  | .invalidResponse _ _ => true
  | _ => false

/-- Whether a `ReqResult` is the `EmptyError` placeholder. -/
def ReqResult.isEmptyError {T : Type} : ReqResult T → Bool
  | .emptyError => true
  | _ => false

/-- What one call of `process_request` did: its returned result, the
number of HTTP attempts sent (`updated_request.send()` calls) and the
number of token refreshes performed (`self.refresh()` calls, each of
which invokes the `update_tokens` collaborator once). -/
structure ExecOutcome (T : Type) where
  result : ReqResult T
  sends : Nat
  refreshes : Nat
deriving DecidableEq

/-- The `for _ in 0..5` loop of `process_request` (src/api/client.rs,
lines 42-77).  `fuel` is the number of loop iterations that remain;
`attemptCounter` is the `attempt_counter` variable.  The list holds the
successive HTTP responses the server produces; an exhausted list models a
transport failure of `send()`, which the source propagates with `?`.
Every assignment to the source `result` variable is immediately followed
by `break`, so the loop result is returned at the break point; if the
fuel runs out with no break the initialisation
`Err(EmptyError)` (line 38) is returned unchanged. -/
def process_request_loop {T : Type} (decode : String → Option T) :
    Nat → List Response → Nat → ExecOutcome T
  | 0, _, _ => ⟨.emptyError, 0, 0⟩
  | _ + 1, [], _ => ⟨.sendFailed, 1, 0⟩
  | fuel + 1, r :: rest, attemptCounter =>
    if r.status = 200 then
      match decode r.raw with
      | some payload => ⟨.ok payload, 1, 0⟩
      | none => ⟨.decodeFailed, 1, 0⟩
    else if r.status = 401 then
      if attemptCounter + 1 ≥ 5 then
        ⟨.invalidResponse r.status r, 1, 0⟩
      else
        let o := process_request_loop decode fuel rest (attemptCounter + 1)
        ⟨o.result, o.sends + 1, o.refreshes + 1⟩
    else
      ⟨.invalidResponse r.status r, 1, 0⟩

/-- `API::process_request` (src/api/client.rs, lines 33-79): run the
retry loop with 5 iterations of fuel, `attempt_counter = 0` and the
result initialised to `EmptyError`. -/
def process_request {T : Type} (decode : String → Option T)
    (responses : List Response) : ExecOutcome T :=
  process_request_loop decode 5 responses 0

/-- Add `n` to the send and refresh counters of an outcome; describes how
an outcome of a loop tail combines with `n` earlier 401 iterations. -/
def bump {T : Type} (n : Nat) (o : ExecOutcome T) : ExecOutcome T :=
  ⟨o.result, o.sends + n, o.refreshes + n⟩

/-! ### Chat stream engine (src/api/stream/stream.rs) -/

/-- `DEFAULT_PING_INTERVAL` (stream.rs line 24), in seconds. -/
def DEFAULT_PING_INTERVAL : Nat := 30

/-- The keepalive state `Ping` (stream.rs lines 127-133): current sleep
interval in seconds (`Duration`), iteration counter (`u64`) and the last
iteration a Pong response was received for (`u64`). -/
structure Ping where
  interval : Nat
  iteration : Nat
  acknowledged : Nat
deriving DecidableEq

/-- `impl Default for Ping` (stream.rs lines 135-143). -/
def Ping.default : Ping :=
  ⟨DEFAULT_PING_INTERVAL, 0, 0⟩

/-- An ASCII decimal digit. -/
def isAsciiDigit (c : Char) : Bool :=
  48 ≤ c.toNat && c.toNat ≤ 57

/-- Rust `str::parse::<u64>`, used on the Pong nonce (stream.rs line
257): an optional leading plus sign followed by at least one ASCII
digit, with the value required to fit in 64 bits. -/
def parse_u64 (s : String) : Option Nat :=
  let cs := match s.data with
    | '+' :: rest => rest
    | cs => cs
  if cs.isEmpty then none
  else if cs.all isAsciiDigit then
    let v := cs.foldl (fun acc c => acc * 10 + (c.toNat - 48)) 0
    if v < 2 ^ 64 then some v else none
  else none

/-- The `Continuation` enum (stream.rs lines 120-124). -/
inductive Continuation where
  | Continue
  | Stop
deriving DecidableEq

/-- Modelled from the spec: the Socket Message tagged union of spec
section 3 (`Auth`, `Response`, `Ping`, `Pong`, `ChatBatch`).  Its
defining file src/api/stream/structs.rs is not under src; the variant
payloads follow the spec together with the pattern matches of stream.rs
(`Pong { nonce, data }` exposing `data.gap : u64`, and
`Chat { channel_info, data }` whose `channel_info` is ignored by the
reader and whose `data.chats` is the ordered item list).  Chat items are
an opaque type parameter `α`. -/
inductive ChatSocketMessage (α : Type) where
  | Auth (nonce : String) (data : List (String × String))
  | Response (nonce : String)
  | Ping (nonce : String)
  | Pong (nonce : String) (gap : Nat)
  | Chat (chats : List α)
deriving DecidableEq

/-- The state of `SocketMessagesReader` that
`handle_socket_message` reads or writes (stream.rs lines 172-181): the
auth pair `(nonce, Option<oneshot::Sender>)` — the `Bool` records
whether the single-use sender is still present — and the reader task
private copy of the keepalive state (`ping: Default::default()`,
line 61). -/
structure ReaderState (α : Type) where
  authNonce : String
  authSender : Bool
  ping : Ping
deriving DecidableEq

/-- What one `handle_socket_message` call did: the updated reader state,
whether the handshake completion slot was fired during this call, the
chat items pushed into `chat_messages_sender` in order, the remaining
consumer budget, and the returned `Continuation`. -/
structure HandleResult (α : Type) where
  state : ReaderState α
  authFired : Bool
  forwarded : List α
  budget : Option Nat
  cont : Continuation
deriving DecidableEq

/-- The `for chat in data.chats` loop of the `Chat` arm (stream.rs lines
276-281).  The budget models the consumer end of the bounded chat
channel: `none` means the receiver stays alive for the whole call (every
send succeeds), `some n` means the receiver accepts `n` further items
and is then dropped, after which `send` returns an error and the loop
returns `Continuation::Stop`. -/
def forwardChats {α : Type} : Option Nat → List α → List α × Option Nat × Continuation
  | b, [] => ([], b, .Continue)
  | none, c :: rest =>
    let r := forwardChats none rest
    (c :: r.1, r.2.1, r.2.2)
  | some 0, _ :: _ => ([], some 0, .Stop)
  | some (n + 1), c :: rest =>
    let r := forwardChats (some n) rest
    (c :: r.1, r.2.1, r.2.2)

/-- The Pong arm of `handle_socket_message` (stream.rs lines 256-271),
acting on a keepalive state: parse the nonce as a `u64` iteration — an
unparsable nonce is logged and the state left unchanged — and ignore any
iteration that does not exceed the acknowledged one; a fresh iteration
updates `acknowledged` and sets `interval` to the gap in seconds
(`Duration::from_secs(data.gap)`). -/
def pongAck (p : Ping) (nonce : String) (gap : Nat) : Ping :=
  match parse_u64 nonce with
  | none => p
  | some iteration =>
    if iteration > p.acknowledged then
      { p with acknowledged := iteration, interval := gap }
    else p

/-- One loop body of `Pinger::spawn` (stream.rs lines 155-166) as far as
the keepalive state is concerned: `self.ping.iteration += 1` before the
Ping message is sent. -/
def pingSent (p : Ping) : Ping :=
  { p with iteration := p.iteration + 1 }

/-- `SocketMessagesReader::handle_socket_message` (stream.rs lines
245-287).  `Response` fires the auth slot on the first nonce match only
(`self.auth.1.take()`); `Pong` updates the keepalive state through
`pongAck`; `Chat` forwards the batch through `forwardChats`, stopping
cleanly when the consumer is gone; `Auth` and `Ping` arriving inbound
hit the `_ => unreachable!()` arm, modelled as `none` (panic). -/
def handle_socket_message {α : Type} (st : ReaderState α) (budget : Option Nat) :
    ChatSocketMessage α → Option (HandleResult α)
  | .Response nonce =>
    if st.authNonce = nonce then
      if st.authSender then
        some ⟨{ st with authSender := false }, true, [], budget, .Continue⟩
      else
        some ⟨st, false, [], budget, .Continue⟩
    else
      some ⟨st, false, [], budget, .Continue⟩
  | .Pong nonce gap =>
    some ⟨{ st with ping := pongAck st.ping nonce gap }, false, [], budget, .Continue⟩
  | .Chat chats =>
    let r := forwardChats budget chats
    some ⟨st, false, r.1, r.2.1, r.2.2⟩
  | .Auth _ _ => none
  | .Ping _ => none

/-- Feed a sequence of inbound `Response` messages to the reader,
returning the final reader state and how many times the handshake
completion slot fired in total. -/
def runResponses {α : Type} (st : ReaderState α) : List String → ReaderState α × Nat
  | [] => (st, 0)
  | nonce :: rest =>
    match handle_socket_message st none (ChatSocketMessage.Response nonce) with
    | some r =>
      let tail := runResponses r.state rest
      (tail.1, (if r.authFired then 1 else 0) + tail.2)
    | none => (st, 0)

/-- Result of feeding a sequence of chat batches to the reader. -/
structure BatchRun (α : Type) where
  state : ReaderState α
  budget : Option Nat
  forwarded : List α
  cont : Continuation
deriving DecidableEq

/-- Feed a sequence of inbound `ChatBatch` messages to the reader,
accumulating the items forwarded to the consumer in order; processing
ends early when a batch returns `Continuation::Stop` (the reader task
then breaks out of its loop). -/
def runChatBatches {α : Type} (st : ReaderState α) (budget : Option Nat) :
    List (List α) → BatchRun α
  | [] => ⟨st, budget, [], .Continue⟩
  | batch :: rest =>
    match handle_socket_message st budget (ChatSocketMessage.Chat batch) with
    | some r =>
      match r.cont with
      | .Stop => ⟨r.state, r.budget, r.forwarded, .Stop⟩
      | .Continue =>
        let tail := runChatBatches r.state r.budget rest
        ⟨tail.state, tail.budget, r.forwarded ++ tail.forwarded, tail.cont⟩
    | none => ⟨st, budget, [], .Stop⟩

/-! ### The keepalive protocol (Pinger and reader Pong handling) -/

/-- Reachable states of the keepalive protocol, combining the two
operations the source performs on keepalive state: the `Pinger` loop
increments the iteration counter before sending `Ping { nonce:
iteration.to_string() }` (stream.rs lines 155-165) and the reader Pong
arm acknowledges an iteration (stream.rs lines 256-269).  A Pong is an
acknowledgment of a ping that was sent earlier, so when its nonce parses
as an iteration, that iteration is at most the current counter; Pongs
with unparsable nonces are unrestricted (the reader ignores them). -/
inductive KReach : Ping → Prop where
  | init : KReach Ping.default
  | ping {p : Ping} : KReach p → KReach (pingSent p)
  | pong {p : Ping} (nonce : String) (gap : Nat) : KReach p →
      (∀ i, parse_u64 nonce = some i → i ≤ p.iteration) →
      KReach (pongAck p nonce gap)

/-! ### Whole connection state after a successful handshake -/

/-- `CHAT_MESSAGES_BUFFER` (stream.rs line 23). -/
def CHAT_MESSAGES_BUFFER : Nat := 32

/-- The state of one established chat connection: the shared
`CancellationToken`, the liveness of the three spawned tasks and of the
consumer-held receiver, the reader task state, the `Pinger` task private
keepalive state (`ping: Default::default()`, stream.rs line 84 — a copy
separate from the reader state), the pinger-to-writer channel of
capacity 1 (stream.rs line 44) and the reader-to-consumer chat channel
of capacity `CHAT_MESSAGES_BUFFER` (line 48).  Tasks that exit drop
their ends of the channels; `SocketMessagesReader` and
`SocketMessagesWriter` both cancel the token in their `Drop`
implementations (stream.rs lines 289-293 and 351-355), while `Pinger`
has no such `Drop`. -/
structure SystemState (α : Type) where
  cancelled : Bool
  readerAlive : Bool
  writerAlive : Bool
  pingerAlive : Bool
  receiverAlive : Bool
  reader : ReaderState α
  pingerPing : Ping
  socketQueue : List (ChatSocketMessage α)
  chatQueue : List α
deriving DecidableEq

/-- The atomic events of an established connection: the handle being
closed or dropped, the reader taking the cancellation branch of its
`select!`, the inbound socket ending, an inbound socket message being
handled, the writer taking its cancellation branch, the writer receiving
and sending one queued outbound message, the writer observing its
command channel closed and empty, one `Pinger` loop iteration whose send
succeeds, and one `Pinger` iteration whose send fails because the writer
is gone. -/
inductive SysEvent (α : Type) where
  | closeHandle
  | dropHandle
  | readerStop
  | readerEnd
  | readerMsg (m : ChatSocketMessage α)
  | writerStop
  | writerRecv
  | writerEnd
  | pingerTick
  | pingerFail
deriving DecidableEq

/-- One step of the connection.  `none` means the event is not enabled
in this state (the corresponding task is suspended or gone).  Reader and
writer exits run their `Drop` implementations, cancelling the token; the
`Pinger` loop never looks at the token: it sleeps
`self.ping.interval`, increments its own iteration, and sends
`Ping { nonce: iteration.to_string() }`, panicking when the send fails
(stream.rs lines 152-168). -/
def stepSys {α : Type} (s : SystemState α) : SysEvent α → Option (SystemState α)
  | .closeHandle => some { s with cancelled := true }
  | .dropHandle => some { s with cancelled := true, receiverAlive := false }
  | .readerStop =>
    if s.readerAlive && s.cancelled then
      some { s with readerAlive := false, cancelled := true }
    else none
  | .readerEnd =>
    if s.readerAlive then
      some { s with readerAlive := false, cancelled := true }
    else none
  | .readerMsg m =>
    if s.readerAlive then
      match handle_socket_message s.reader
          (if s.receiverAlive then none else some 0) m with
      | none => some { s with readerAlive := false, cancelled := true }
      | some r =>
        if s.receiverAlive && decide (CHAT_MESSAGES_BUFFER < s.chatQueue.length + r.forwarded.length) then
          none
        else
          match r.cont with
          | .Continue =>
            some { s with reader := r.state, chatQueue := s.chatQueue ++ r.forwarded }
          | .Stop =>
            some { s with
              reader := r.state
              chatQueue := s.chatQueue ++ r.forwarded
              readerAlive := false
              cancelled := true }
    else none
  | .writerStop =>
    if s.writerAlive && s.cancelled then
      some { s with writerAlive := false, cancelled := true }
    else none
  | .writerRecv =>
    if s.writerAlive then
      match s.socketQueue with
      | [] => none
      | _ :: rest => some { s with socketQueue := rest }
    else none
  | .writerEnd =>
    if s.writerAlive && !s.pingerAlive && s.socketQueue.isEmpty then
      some { s with writerAlive := false, cancelled := true }
    else none
  | .pingerTick =>
    if s.pingerAlive && s.writerAlive && s.socketQueue.isEmpty then
      some { s with
        pingerPing := pingSent s.pingerPing
        socketQueue := s.socketQueue ++
          [ChatSocketMessage.Ping (toString (pingSent s.pingerPing).iteration)] }
    else none
  | .pingerFail =>
    if s.pingerAlive && !s.writerAlive then
      some { s with pingerPing := pingSent s.pingerPing, pingerAlive := false }
    else none

/-- Run a list of events, skipping the ones that are not enabled. -/
def runSys {α : Type} (s : SystemState α) : List (SysEvent α) → SystemState α
  | [] => s
  | e :: rest =>
    match stepSys s e with
    | some t => runSys t rest
    | none => runSys s rest

/-- The connection state `ChatMessageStream::connect` hands back to the
caller (stream.rs lines 36-93): all three tasks spawned and alive, the
token not cancelled, the handshake already resolved (the oneshot sender
was taken), both keepalive state copies at their defaults and both
channels empty. -/
def initSystem (α : Type) (authNonce : String) : SystemState α :=
  ⟨false, true, true, true, true, ⟨authNonce, false, Ping.default⟩,
    Ping.default, [], []⟩

/-- Result of one `poll_next` call on the handle. -/
inductive PollResult (α : Type) where
  | item (a : α)
  | pending
  | ended
deriving DecidableEq

/-- `ChatMessageStream::poll_next` (stream.rs lines 106-112), which is
`mpsc::Receiver::poll_recv` on the chat channel: a buffered item is
returned first even when the channel is closed; `Ready(None)`
(end-of-stream) is returned only once the buffer is empty and every
sender — the reader task clone and the writer task clone — is gone;
otherwise the call is pending. -/
def poll_next {α : Type} (s : SystemState α) : PollResult α × SystemState α :=
  match s.chatQueue with
  | c :: rest => (.item c, { s with chatQueue := rest })
  | [] =>
    if s.readerAlive || s.writerAlive then (.pending, s)
    else (.ended, s)

/-- The interval the `Pinger` task sleeps on at its next iteration:
`sleep(self.ping.interval)` on its own keepalive state copy (stream.rs
line 156). -/
def pingerSleepInterval {α : Type} (s : SystemState α) : Nat :=
  s.pingerPing.interval

/-- Connection run for claim C3: the pinger sends its first Ping, the
writer puts it on the socket, and the server answers with
`Pong { nonce: "1", gap: 10 }`, which the reader handles. -/
def c3State : SystemState Nat :=
  runSys (initSystem Nat "nonce")
    [SysEvent.pingerTick, SysEvent.writerRecv,
     SysEvent.readerMsg (ChatSocketMessage.Pong "1" 10)]

/-- Connection run for claim C6: the reader forwards a one-item chat
batch into the consumer queue, then the handle is closed and the reader
and writer observe the cancellation and exit. -/
def c6State : SystemState Nat :=
  runSys (initSystem Nat "nonce")
    [SysEvent.readerMsg (ChatSocketMessage.Chat [7]), SysEvent.closeHandle,
     SysEvent.readerStop, SysEvent.writerStop]

theorem bump_zero {T : Type} (o : ExecOutcome T) : bump 0 o = o := by
  simp [bump]

theorem bump_bump {T : Type} (m n : Nat) (o : ExecOutcome T) :
    bump m (bump n o) = bump (n + m) o := by
  simp [bump]
  omega

/-- Running the loop over a block of consecutive 401 responses peels the
block off, performing one send and one refresh per 401, as long as the
attempt counter stays below the bound. -/
theorem process_request_loop_401s {T : Type} (decode : String → Option T) :
    ∀ (ps rest : List Response) (fuel ac : Nat),
      (∀ p ∈ ps, p.status = 401) → ps.length ≤ fuel → ac + ps.length ≤ 4 →
      process_request_loop decode fuel (ps ++ rest) ac =
        bump ps.length
          (process_request_loop decode (fuel - ps.length) rest (ac + ps.length)) := by
  intro ps
  induction ps with
  | nil =>
    intro rest fuel ac _ _ _
    simp [bump]
  | cons p ps ih =>
    intro rest fuel ac h401 hfuel hac
    obtain ⟨f, rfl⟩ : ∃ f, fuel = f + 1 := by
      cases fuel with
      | zero => simp at hfuel
      | succ f => exact ⟨f, rfl⟩
    have hp : p.status = 401 := h401 p (by simp)
    have hnot200 : ¬ p.status = 200 := by omega
    have hcnt : ¬ ac + 1 ≥ 5 := by
      simp [List.length_cons] at hac
      omega
    have step : process_request_loop decode (f + 1) ((p :: ps) ++ rest) ac =
        bump 1 (process_request_loop decode f (ps ++ rest) (ac + 1)) := by
      simp only [List.cons_append, process_request_loop, hnot200, if_false, hp, if_true,
        if_neg hcnt]
      rfl
    rw [step, ih rest f (ac + 1) (fun q hq => h401 q (by simp [hq]))
      (by simp [List.length_cons] at hfuel; omega)
      (by simp [List.length_cons] at hac ⊢; omega)]
    rw [bump_bump]
    have hlen : (p :: ps).length = ps.length + 1 := by simp
    have hfuel2 : f + 1 - (ps.length + 1) = f - ps.length := by omega
    have hac2 : ac + 1 + ps.length = ac + (ps.length + 1) := by omega
    rw [hlen, hfuel2, hac2]

/-- Helper for C10: with at least one iteration of fuel left and the
attempt counter plus remaining fuel covering the 5-attempt budget — the
invariant the loop maintains from its entry point — the loop always
breaks with an assigned result, never falling through to the
`EmptyError` initialisation. -/
theorem process_request_loop_ne_empty {T : Type} (decode : String → Option T) :
    ∀ (fuel : Nat) (rs : List Response) (ac : Nat), 1 ≤ fuel → 5 ≤ ac + fuel →
      (process_request_loop decode fuel rs ac).result.isEmptyError = false := by
  intro fuel
  induction fuel with
  | zero =>
    intro rs ac h1 _
    exact absurd h1 (by omega)
  | succ f ih =>
    intro rs ac _ h2
    cases rs with
    | nil => simp [process_request_loop, ReqResult.isEmptyError]
    | cons r rest =>
      by_cases h200 : r.status = 200
      · rcases hdec : decode r.raw with _ | t <;>
          simp [process_request_loop, h200, hdec, ReqResult.isEmptyError]
      · by_cases h401 : r.status = 401
        · by_cases hge : ac + 1 ≥ 5
          · simp [process_request_loop, h200, h401, hge, ReqResult.isEmptyError]
          · have htail := ih rest (ac + 1) (by omega) (by omega)
            simpa [process_request_loop, h200, h401, hge] using htail
        · simp [process_request_loop, h200, h401, ReqResult.isEmptyError]

/-- C1: against a server answering five consecutive 401 statuses, the
executor sends exactly 5 attempts, invokes the token-refresh
collaborator exactly 4 times and returns `InvalidResponse`; against a
server whose first non-401 answer is a 200 on attempt k (1 ≤ k ≤ 5,
with k - 1 earlier 401 answers), it returns the decoded success after
exactly k attempts and k - 1 refreshes. -/
theorem executor_retry_c1 (T : Type) (decode : String → Option T) :
    (∀ (r1 r2 r3 r4 r5 : Response) (rest : List Response),
      r1.status = 401 → r2.status = 401 → r3.status = 401 →
      r4.status = 401 → r5.status = 401 →
      process_request decode ([r1, r2, r3, r4, r5] ++ rest) =
        ⟨.invalidResponse r5.status r5, 5, 4⟩) ∧
    (∀ (ps : List Response) (r : Response) (rest : List Response) (t : T),
      ps.length ≤ 4 → (∀ p ∈ ps, p.status = 401) →
      r.status = 200 → decode r.raw = some t →
      process_request decode (ps ++ r :: rest) =
        ⟨.ok t, ps.length + 1, ps.length⟩) := by
  constructor
  · intro r1 r2 r3 r4 r5 rest h1 h2 h3 h4 h5
    have hsplit : [r1, r2, r3, r4, r5] ++ rest = [r1, r2, r3, r4] ++ (r5 :: rest) := by
      simp
    unfold process_request
    rw [hsplit, process_request_loop_401s decode [r1, r2, r3, r4] (r5 :: rest) 5 0
      (by intro p hp; simp at hp; rcases hp with h | h | h | h <;> simp [h, h1, h2, h3, h4])
      (by simp) (by simp)]
    have hnot200 : ¬ r5.status = 200 := by omega
    simp [process_request_loop, hnot200, h5, bump]
  · intro ps r rest t hlen h401 h200 hdec
    unfold process_request
    rw [process_request_loop_401s decode ps (r :: rest) 5 0 h401 (by omega) (by omega)]
    obtain ⟨k, hk⟩ : ∃ k, 5 - ps.length = k + 1 := ⟨4 - ps.length, by omega⟩
    rw [hk]
    simp [process_request_loop, h200, hdec, bump, ExecOutcome.mk.injEq]
    omega

/-- C1 witness: a concrete 401 run of length five and a concrete
401-then-200 run, evaluated through the theorem. -/
theorem executor_retry_c1_witness :
    process_request (fun s => if s = "7" then some 7 else none)
        [⟨401, "a"⟩, ⟨401, "b"⟩, ⟨401, "c"⟩, ⟨401, "d"⟩, ⟨401, "e"⟩] =
      ⟨.invalidResponse 401 ⟨401, "e"⟩, 5, 4⟩ ∧
    process_request (fun s => if s = "7" then some 7 else none)
      [⟨401, "a"⟩, ⟨200, "7"⟩] = ⟨.ok 7, 2, 1⟩ := by
  constructor
  · have h := (executor_retry_c1 Nat (fun s => if s = "7" then some 7 else none)).1
      ⟨401, "a"⟩ ⟨401, "b"⟩ ⟨401, "c"⟩ ⟨401, "d"⟩ ⟨401, "e"⟩ [] rfl rfl rfl rfl rfl
    simpa using h
  · have h := (executor_retry_c1 Nat (fun s => if s = "7" then some 7 else none)).2
      [⟨401, "a"⟩] ⟨200, "7"⟩ [] 7 (by simp) (by simp) rfl (by decide)
    simpa using h

/-- C9: a response whose status is neither 200 nor 401, arriving on any
attempt (after any run of at most four 401 answers), makes the executor
return `InvalidResponse` carrying that status and that raw response at
once: the attempt count stops at the attempts made so far and no refresh
is triggered by this response. -/
theorem other_status_c9 (T : Type) (decode : String → Option T) :
    ∀ (ps : List Response) (r : Response) (rest : List Response),
      ps.length ≤ 4 → (∀ p ∈ ps, p.status = 401) →
      r.status ≠ 200 → r.status ≠ 401 →
      process_request decode (ps ++ r :: rest) =
        ⟨.invalidResponse r.status r, ps.length + 1, ps.length⟩ := by
  intro ps r rest hlen h401 h200 h401r
  unfold process_request
  rw [process_request_loop_401s decode ps (r :: rest) 5 0 h401 (by omega) (by omega)]
  obtain ⟨k, hk⟩ : ∃ k, 5 - ps.length = k + 1 := ⟨4 - ps.length, by omega⟩
  rw [hk]
  simp [process_request_loop, h200, h401r, bump, ExecOutcome.mk.injEq]
  omega

/-- C9 witness: a 500 on the first attempt and a 404 after two 401
attempts, evaluated through the theorem. -/
theorem other_status_c9_witness :
    process_request (fun _ => (some 0 : Option Nat)) [⟨500, "oops"⟩] =
      ⟨.invalidResponse 500 ⟨500, "oops"⟩, 1, 0⟩ ∧
    process_request (fun _ => (some 0 : Option Nat)) [⟨401, "a"⟩, ⟨401, "b"⟩, ⟨404, "nf"⟩] =
      ⟨.invalidResponse 404 ⟨404, "nf"⟩, 3, 2⟩ := by
  constructor
  · have h := other_status_c9 Nat (fun _ => some 0) [] ⟨500, "oops"⟩ []
      (by simp) (by simp) (by decide) (by decide)
    simpa using h
  · have h := other_status_c9 Nat (fun _ => some 0) [⟨401, "a"⟩, ⟨401, "b"⟩] ⟨404, "nf"⟩ []
      (by simp) (by simp) (by decide) (by decide)
    simpa using h

/-- C10: when the retry loop runs out of iterations with no result
assigned, the returned value is the `EmptyError` initialisation of the
result variable — an internal error that is not an `InvalidResponse` —
and from the actual entry point (5 iterations of fuel, counter 0) this
fallback is unreachable: `process_request` never returns `EmptyError`. -/
theorem empty_error_c10 (T : Type) :
    (∀ (decode : String → Option T) (rs : List Response) (ac : Nat),
      process_request_loop decode 0 rs ac = ⟨.emptyError, 0, 0⟩) ∧
    (ReqResult.emptyError : ReqResult T).isInvalidResponse = false ∧
    (ReqResult.emptyError : ReqResult T).isEmptyError = true ∧
    (∀ (decode : String → Option T) (rs : List Response),
      (process_request decode rs).result.isEmptyError = false) := by
  refine ⟨fun decode rs ac => rfl, rfl, rfl, fun decode rs => ?_⟩
  exact process_request_loop_ne_empty decode 5 rs 0 (by omega) (by omega)

/-- A live consumer accepts a whole batch: every send succeeds and the
items come out in order, with the loop falling through to
`Continuation::Continue`. -/
theorem forwardChats_none {α : Type} :
    ∀ cs : List α, forwardChats none cs = (cs, none, .Continue) := by
  intro cs
  induction cs with
  | nil => simp [forwardChats]
  | cons c rest ih => simp [forwardChats, ih]

/-- C2: a Pong whose nonce parses to an iteration not exceeding the
acknowledged one leaves the reader state fully unchanged; one that
parses to a greater iteration sets `acknowledged` to it and the interval
to the supplied gap, leaving the iteration counter and everything else
unchanged; a Pong whose nonce does not parse leaves the state unchanged.
All three cases return `Continuation::Continue` (non-fatal) and forward
nothing. -/
theorem pong_handling_c2 (α : Type) :
    ∀ (st : ReaderState α) (b : Option Nat) (nonce : String) (gap : Nat),
      (parse_u64 nonce = none →
        handle_socket_message st b (ChatSocketMessage.Pong nonce gap) =
          some ⟨st, false, [], b, .Continue⟩) ∧
      (∀ i, parse_u64 nonce = some i → i ≤ st.ping.acknowledged →
        handle_socket_message st b (ChatSocketMessage.Pong nonce gap) =
          some ⟨st, false, [], b, .Continue⟩) ∧
      (∀ i, parse_u64 nonce = some i → i > st.ping.acknowledged →
        handle_socket_message st b (ChatSocketMessage.Pong nonce gap) =
          some ⟨⟨st.authNonce, st.authSender, ⟨gap, st.ping.iteration, i⟩⟩,
            false, [], b, .Continue⟩) := by
  intro st b nonce gap
  refine ⟨fun hp => ?_, fun i hp hle => ?_, fun i hp hgt => ?_⟩
  · simp [handle_socket_message, pongAck, hp]
  · have hnot : ¬ i > st.ping.acknowledged := by omega
    simp [handle_socket_message, pongAck, hp, hnot]
  · simp [handle_socket_message, pongAck, hp, hgt]

/-- C2 witness: with acknowledged iteration 3, the Pong iterations 3
(stale), 5 (fresh, gap 10) and an unparsable nonce, evaluated through
the theorem. -/
theorem pong_handling_c2_witness :
    handle_socket_message (⟨"N", false, ⟨30, 2, 3⟩⟩ : ReaderState Nat) none
        (ChatSocketMessage.Pong "3" 99) =
      some ⟨⟨"N", false, ⟨30, 2, 3⟩⟩, false, [], none, .Continue⟩ ∧
    handle_socket_message (⟨"N", false, ⟨30, 2, 3⟩⟩ : ReaderState Nat) none
        (ChatSocketMessage.Pong "5" 10) =
      some ⟨⟨"N", false, ⟨10, 2, 5⟩⟩, false, [], none, .Continue⟩ ∧
    handle_socket_message (⟨"N", false, ⟨30, 2, 3⟩⟩ : ReaderState Nat) none
        (ChatSocketMessage.Pong "abc" 10) =
      some ⟨⟨"N", false, ⟨30, 2, 3⟩⟩, false, [], none, .Continue⟩ := by
  refine ⟨?_, ?_, ?_⟩
  · exact (pong_handling_c2 Nat ⟨"N", false, ⟨30, 2, 3⟩⟩ none "3" 99).2.1 3
      (by decide) (by decide)
  · exact (pong_handling_c2 Nat ⟨"N", false, ⟨30, 2, 3⟩⟩ none "5" 10).2.2 5
      (by decide) (by decide)
  · exact (pong_handling_c2 Nat ⟨"N", false, ⟨30, 2, 3⟩⟩ none "abc" 10).1 (by decide)

/-- C4: over any sequence of inbound `Response` messages the completion
slot fires exactly once when it is still pending and some nonce matches,
and zero times otherwise — in particular at most once; a fire can only
happen on a matching nonce with the slot still pending; a `Response`
with a non-matching nonce, or any `Response` once the slot has been
taken, is a complete no-op. -/
theorem handshake_once_c4 (α : Type) :
    (∀ (st : ReaderState α) (nonces : List String),
      (runResponses st nonces).2 =
        if st.authSender = true ∧ st.authNonce ∈ nonces then 1 else 0) ∧
    (∀ (st : ReaderState α) (b : Option Nat) (nonce : String) (r : HandleResult α),
      handle_socket_message st b (ChatSocketMessage.Response nonce) = some r →
      r.authFired = true → nonce = st.authNonce ∧ st.authSender = true) ∧
    (∀ (st : ReaderState α) (b : Option Nat) (nonce : String),
      nonce ≠ st.authNonce →
      handle_socket_message st b (ChatSocketMessage.Response nonce) =
        some ⟨st, false, [], b, .Continue⟩) ∧
    (∀ (st : ReaderState α) (b : Option Nat) (nonce : String),
      st.authSender = false →
      handle_socket_message st b (ChatSocketMessage.Response nonce) =
        some ⟨st, false, [], b, .Continue⟩) := by
  refine ⟨?_, ?_, ?_, ?_⟩
  · intro st nonces
    induction nonces generalizing st with
    | nil => simp [runResponses]
    | cons n ns ih =>
      by_cases heq : st.authNonce = n
      · by_cases hs : st.authSender = true
        · simp [runResponses, handle_socket_message, heq, hs, ih]
        · simp [runResponses, handle_socket_message, heq, hs, ih]
      · simp [runResponses, handle_socket_message, heq, ih]
  · intro st b nonce r h hf
    by_cases heq : st.authNonce = nonce
    · by_cases hs : st.authSender = true
      · exact ⟨heq.symm, hs⟩
      · simp [handle_socket_message, heq, hs] at h
        rw [← h] at hf
        simp at hf
    · simp [handle_socket_message, heq] at h
      rw [← h] at hf
      simp at hf
  · intro st b nonce hne
    have heq : ¬ st.authNonce = nonce := fun h => hne h.symm
    simp [handle_socket_message, heq]
  · intro st b nonce hs
    by_cases heq : st.authNonce = nonce <;> simp [handle_socket_message, heq, hs]

/-- C4 witness: with the local nonce N still pending, the sequence
x, N, N fires exactly once, and a non-matching `Response` is a no-op,
both evaluated through the theorem. -/
theorem handshake_once_c4_witness :
    (runResponses (⟨"N", true, Ping.default⟩ : ReaderState Nat) ["x", "N", "N"]).2 = 1 ∧
    handle_socket_message (⟨"N", true, Ping.default⟩ : ReaderState Nat) none
        (ChatSocketMessage.Response "x") =
      some ⟨⟨"N", true, Ping.default⟩, false, [], none, .Continue⟩ := by
  constructor
  · have h := (handshake_once_c4 Nat).1 ⟨"N", true, Ping.default⟩ ["x", "N", "N"]
    rw [h]
    decide
  · exact (handshake_once_c4 Nat).2.2.1 ⟨"N", true, Ping.default⟩ none "x" (by decide)

/-- C5: with a live consumer, any sequence of chat batches is forwarded
in full, in order within and across batches (the flattened batch list),
with the reader state untouched and the loop continuing; with the
consumer end dropped, a non-empty batch forwards nothing and returns the
clean-stop continuation `Continuation::Stop` — the graceful task exit,
not an error. -/
theorem chat_forwarding_c5 (α : Type) :
    (∀ (st : ReaderState α) (batches : List (List α)),
      runChatBatches st none batches = ⟨st, none, batches.flatten, .Continue⟩) ∧
    (∀ (st : ReaderState α) (c : α) (cs : List α),
      handle_socket_message st (some 0) (ChatSocketMessage.Chat (c :: cs)) =
        some ⟨st, false, [], some 0, .Stop⟩) := by
  constructor
  · intro st batches
    induction batches generalizing st with
    | nil => simp [runChatBatches]
    | cons b bs ih =>
      simp [runChatBatches, handle_socket_message, forwardChats_none, ih]
  · intro st c cs
    simp [handle_socket_message, forwardChats]

/-- C8: every state of the keepalive protocol reachable through Pinger
iterations and reader-processed Pong acknowledgments satisfies
`acknowledged ≤ iteration`. -/
theorem keepalive_invariant_c8 :
    ∀ p : Ping, KReach p → p.acknowledged ≤ p.iteration := by
  intro p h
  induction h with
  | init => simp [Ping.default]
  | @ping q hr ih =>
    show q.acknowledged ≤ q.iteration + 1
    omega
  | @pong q nonce gap hr hbound ih =>
    unfold pongAck
    cases hp : parse_u64 nonce with
    | none => simpa using ih
    | some i =>
      by_cases hgt : i > q.acknowledged
      · simpa [hgt] using hbound i hp
      · simpa [hgt] using ih

/-- C8 witness: one ping followed by the Pong acknowledging iteration 1
with gap 45, a reachable protocol state, checked through the theorem. -/
theorem keepalive_invariant_c8_witness :
    (pongAck (pingSent Ping.default) "1" 45).acknowledged ≤
      (pongAck (pingSent Ping.default) "1" 45).iteration := by
  refine keepalive_invariant_c8 _ (KReach.pong "1" 45 (KReach.ping KReach.init) ?_)
  intro i hi
  have h1 : parse_u64 "1" = some 1 := by decide
  rw [h1] at hi
  injection hi with h
  subst h
  decide

/-- C3: the code violates this claim.  After the Pinger sends Ping 1 and
the reader processes the server answer `Pong { nonce: "1", gap: 10 }`,
the reader records the 10-second interval in its own keepalive copy, but
the Pinger task sleeps on its separate copy, which still holds the
30-second `DEFAULT_PING_INTERVAL` — the reader update never reaches the
sleep (the `TODO` at stream.rs line 145 records the missing wiring). -/
theorem keepalive_interval_c3 :
    c3State.reader.ping.interval = 10 ∧
    c3State.reader.ping.acknowledged = 1 ∧
    pingerSleepInterval c3State = 30 ∧
    DEFAULT_PING_INTERVAL = 30 := by decide

/-- C6: the code violates this claim.  With one chat item buffered in
the consumer queue, the handle is closed and the reader and writer both
observe the cancellation and exit — yet the next poll still yields the
buffered item instead of end-of-stream, contradicting the doc comment of
`close` (stream.rs lines 95-97); end-of-stream only comes once the
buffer has drained. -/
theorem close_buffered_c6 :
    c6State.cancelled = true ∧
    c6State.readerAlive = false ∧
    c6State.writerAlive = false ∧
    (poll_next c6State).1 = PollResult.item 7 ∧
    (poll_next (poll_next c6State).2).1 = PollResult.ended := by decide

/-- C7 counterexample: from the freshly connected state, close the
handle (setting the shared cancellation flag) — the Pinger tick is still
enabled and submits another Ping to the writer queue, so the Keepalive
task does not observe the flag at its next suspension point. -/
theorem cancellation_c7_counterexample :
    (runSys (initSystem Nat "nonce") [SysEvent.closeHandle]).cancelled = true ∧
    (stepSys (runSys (initSystem Nat "nonce") [SysEvent.closeHandle])
        SysEvent.pingerTick).map SystemState.socketQueue =
      some [ChatSocketMessage.Ping "1"] := by decide

/-- C7 (amended): once the cancellation flag is set, the Reader and the
Writer each have their cancellation branch enabled at every subsequent
suspension point and exit through it; exits and the flag are permanent
under every step.  The Keepalive task, however, never observes the flag:
while the Writer lives its tick still submits a Ping regardless of
cancellation, and it stops only when a submission fails because the
Writer is gone (a panic, not a cooperative exit). -/
theorem cancellation_c7_amended (α : Type) :
    (∀ s : SystemState α, s.readerAlive = true → s.cancelled = true →
      stepSys s SysEvent.readerStop =
        some { s with readerAlive := false, cancelled := true }) ∧
    (∀ s : SystemState α, s.writerAlive = true → s.cancelled = true →
      stepSys s SysEvent.writerStop =
        some { s with writerAlive := false, cancelled := true }) ∧
    (∀ s : SystemState α, s.pingerAlive = true → s.writerAlive = true →
      s.socketQueue = [] → s.cancelled = true →
      stepSys s SysEvent.pingerTick = some { s with
        pingerPing := pingSent s.pingerPing
        socketQueue :=
          [ChatSocketMessage.Ping (toString (pingSent s.pingerPing).iteration)] }) ∧
    (∀ s : SystemState α, s.pingerAlive = true → s.writerAlive = false →
      stepSys s SysEvent.pingerFail = some { s with
        pingerPing := pingSent s.pingerPing
        pingerAlive := false }) ∧
    (∀ (s t : SystemState α) (e : SysEvent α), stepSys s e = some t →
      (s.cancelled = true → t.cancelled = true) ∧
      (s.readerAlive = false → t.readerAlive = false) ∧
      (s.writerAlive = false → t.writerAlive = false) ∧
      (s.pingerAlive = false → t.pingerAlive = false)) := by
  refine ⟨?_, ?_, ?_, ?_, ?_⟩
  · intro s hr hc
    simp [stepSys, hr, hc]
  · intro s hw hc
    simp [stepSys, hw, hc]
  · intro s hp hw hq hc
    simp [stepSys, hp, hw, hq]
  · intro s hp hw
    simp [stepSys, hp, hw]
  · intro s t e h
    cases e <;> simp only [stepSys] at h <;>
      (try (repeat split at h)) <;>
      (try cases h) <;> simp_all
    obtain ⟨-, h2⟩ := h
    split at h2 <;> (obtain rfl := Option.some.inj h2 ; simp_all)

/-- C7 witness: the amended facts applied at concrete states — a
cancelled connection lets the reader and writer exit, the pinger still
submits Ping 1 despite the flag, a pinger with the writer gone dies on
its failed send, and a concrete step keeps the flag monotone. -/
theorem cancellation_c7_amended_witness :
    (stepSys ({ initSystem Nat "n" with cancelled := true }) SysEvent.readerStop).map
        SystemState.readerAlive = some false ∧
    (stepSys ({ initSystem Nat "n" with cancelled := true }) SysEvent.writerStop).map
        SystemState.writerAlive = some false ∧
    (stepSys ({ initSystem Nat "n" with cancelled := true }) SysEvent.pingerTick).map
        SystemState.socketQueue = some [ChatSocketMessage.Ping "1"] ∧
    (stepSys ({ initSystem Nat "n" with writerAlive := false }) SysEvent.pingerFail).map
        SystemState.pingerAlive = some false ∧
    (stepSys ({ initSystem Nat "n" with cancelled := true }) SysEvent.dropHandle).map
        SystemState.cancelled = some true := by
  have h := cancellation_c7_amended Nat
  refine ⟨?_, ?_, ?_, ?_, ?_⟩
  · rw [h.1 ({ initSystem Nat "n" with cancelled := true }) rfl rfl]
    rfl
  · rw [h.2.1 ({ initSystem Nat "n" with cancelled := true }) rfl rfl]
    rfl
  · rw [h.2.2.1 ({ initSystem Nat "n" with cancelled := true }) rfl rfl rfl rfl]
    rfl
  · rw [h.2.2.2.1 ({ initSystem Nat "n" with writerAlive := false }) rfl rfl]
    rfl
  · have hm := (h.2.2.2.2 ({ initSystem Nat "n" with cancelled := true })
      ({ initSystem Nat "n" with cancelled := true, receiverAlive := false })
      SysEvent.dropHandle rfl).1 rfl
    exact congrArg some hm
